import Mathlib

/-!
Shallow embedding of `src/openbench/scorers/simpleqa_search_signal.py`:
the tool-call detector `_extract_tool_calls`, the abstention-aware
`score` closure of `simpleqa_search_signal_scorer`, and the
`metric_calculator` closure of `simpleqa_search_signal_metrics`.

Python dynamic values occurring in metadata and tool-call entries are
modelled by the inductive `PyVal`; Python truthiness by `pyTruthy`;
a raised exception by `Except.error ()`.
-/

namespace SimpleQASearchSignal

/-- Dynamic Python values that can appear in score metadata and in
dict-shaped tool-call entries. -/
inductive PyVal where
  | vNone : PyVal
  | vBool : Bool → PyVal
  | vInt : Int → PyVal
  | vStr : String → PyVal
  | vList : List PyVal → PyVal
  | vDict : List (String × PyVal) → PyVal

/-- Python truthiness (`bool(v)`): None/False/0, the empty string and
empty containers are falsy. -/
def pyTruthy : PyVal → Bool
  | .vNone => false
  | .vBool b => b
  | .vInt n => n != 0
  | .vStr s => !s.isEmpty
  | .vList l => !l.isEmpty
  | .vDict d => !d.isEmpty

/-- Python `str(v)`. Faithful on strings (the only case the scorer's
behaviour observably depends on); the renderings of the remaining
CPython reprs are abstracted. -/
def pyStr : PyVal → String
  | .vStr s => s
  | .vBool true => "True"
  | .vBool false => "False"
  | .vNone => "None"
  | .vInt n => toString n
  | .vList _ => "<list>"
  | .vDict _ => "<dict>"

/-- Python whitespace for `str.strip()` (the ASCII fragment; Unicode
whitespace beyond it is abstracted away). -/
def pyIsSpace (c : Char) : Bool :=
  c = ' ' || c = '\t' || c = '\n' || c = '\r' || c = '\x0b' || c = '\x0c'

/-- Python `s.strip()`: drop leading and trailing whitespace. -/
def pyStrip (s : String) : String :=
  ⟨((s.data.dropWhile pyIsSpace).reverse.dropWhile pyIsSpace).reverse⟩

/-- Python `str.lower()` on one character (the ASCII fragment). -/
def pyLowerChar (c : Char) : Char :=
  if 'A' ≤ c && c ≤ 'Z' then Char.ofNat (c.toNat + 32) else c

/-- Python `s.lower()`. -/
def pyLower (s : String) : String := ⟨s.data.map pyLowerChar⟩

/-- Python `d.get(k)`: the stored value, or None when the key is absent. -/
def dictGet (d : List (String × PyVal)) (k : String) : PyVal :=
  (d.lookup k).getD .vNone

/-- Is the value a Python dict? -/
def PyVal.isDict : PyVal → Bool
  | .vDict _ => true
  | _ => false

/-- The attribute-object shape reachable via `getattr(tc, "function", None)`:
anything with an optional `name` attribute (an object without one, or a
non-object, behaves as `name := none`). -/
structure FuncObj where
  name : Option PyVal

/-- A tool-call entry: either a dict (probed with `.get`) or an
attribute object (probed with `getattr`). `none` models a missing
attribute. -/
inductive ToolCall where
  | ofDict : List (String × PyVal) → ToolCall
  | ofObj : Option PyVal → Option FuncObj → ToolCall

/-- A chat message as read by the detector: `getattr(m, "role", None)`
and `getattr(m, "tool_calls", None)`. -/
structure Message where
  role : Option String
  tool_calls : Option (List ToolCall)

/-- `state.output`: optional primary message and optional completion text. -/
structure Output where
  message : Option Message
  completion : Option String

/-- The slice of `TaskState` the scorer reads: `state.output` and
`getattr(state, "messages", [])` (where `none` models a missing or
None `messages`). -/
structure TaskState where
  output : Output
  messages : Option (List Message)

/-- Name extraction for one tool-call entry (the loop body of
`_extract_tool_calls`). Dict shape:
`tc.get("name") or (tc.get("function") or \x7b\x7d).get("name")` —
calling `.get` on a truthy non-dict `function` value raises
(`Except.error`). Object shape: `getattr(tc, "name", None)`, falling
back to `getattr(getattr(tc, "function", None), "name", None)` only
when the former is None; never raises. -/
def extractName : ToolCall → Except Unit PyVal
  | .ofDict d =>
      let n := dictGet d "name"
      if pyTruthy n then .ok n
      else
        let f := dictGet d "function"
        if pyTruthy f then
          match f with
          | .vDict d2 => .ok (dictGet d2 "name")
          | _ => .error ()
        else .ok (dictGet [] "name")
  | .ofObj nameAttr funcAttr =>
      match nameAttr.getD .vNone with
      | .vNone => .ok ((funcAttr.bind FuncObj.name).getD .vNone)
      | n => .ok n

/-- The extraction loop over an invocation list: truthy extracted names
are collected (as `str(name)`); entries with no truthy name are counted
but contribute no name; an exception aborts the whole call. -/
def extractNames : List ToolCall → Except Unit (List String)
  | [] => .ok []
  | tc :: rest =>
      match extractName tc with
      | .error e => .error e
      | .ok n =>
          match extractNames rest with
          | .error e => .error e
          | .ok ns => .ok (if pyTruthy n then pyStr n :: ns else ns)

/-- The fallback scan over `state.messages`: the first message with role
"assistant" and a truthy (non-empty) `tool_calls` list decides the
result; all others are skipped. -/
def scanHistory : List Message → Except Unit (Bool × List String)
  | [] => .ok (false, [])
  | m :: rest =>
      if m.role = some "assistant" then
        match m.tool_calls with
        | some tcs =>
            if tcs.isEmpty then scanHistory rest
            else
              match extractNames tcs with
              | .error e => .error e
              | .ok ns => .ok (true, ns)
        | none => scanHistory rest
      else scanHistory rest

/-- `_extract_tool_calls(state)`: prefer the primary output message's
truthy `tool_calls` list, else scan the history; returns
`(tool_called, tool_names)`. -/
def extract_tool_calls (state : TaskState) : Except Unit (Bool × List String) :=
  match state.output.message.bind Message.tool_calls with
  | some tcs =>
      if tcs.isEmpty then scanHistory (state.messages.getD [])
      else
        match extractNames tcs with
        | .error e => .error e
        | .ok ns => .ok (true, ns)
  | none => scanHistory (state.messages.getD [])

/-- An inspect-ai `Score`: numeric value (exact rationals stand in for
Python floats; no float arithmetic occurs in the scorer), answer text,
and a metadata mapping (`none` = key absent; a Python None metadata
dict behaves as the empty mapping after `or \x7b\x7d`). -/
structure ScoreRec where
  value : ℚ
  answer : String
  metadata : String → Option PyVal

/-- The metadata dict built in the short-circuit (abstention) branch of
`score`. -/
def shortCircuitMeta (tool_names : List String) : String → Option PyVal :=
  fun k =>
    if k = "grade" then some (.vStr "not_attempted")
    else if k = "grade_letter" then some (.vStr "C")
    else if k = "tool_called" then some (.vBool true)
    else if k = "tools" then some (.vList (tool_names.map PyVal.vStr))
    else if k = "abstention_reason" then some (.vStr "tool_call")
    else none

/-- `md.update(\x7b"tool_called": ..., "tools": ..., "abstention_reason": ...\x7d)`
applied to a copy of the baseline metadata: the three keys are
overwritten or added, all others read through. -/
def mergeMeta (md : String → Option PyVal) (tool_called : Bool)
    (tool_names : List String) (ar : PyVal) : String → Option PyVal :=
  fun k =>
    if k = "tool_called" then some (.vBool tool_called)
    else if k = "tools" then some (.vList (tool_names.map PyVal.vStr))
    else if k = "abstention_reason" then some ar
    else md k

/-- The merged `abstention_reason` value:
`md.get("abstention_reason") or ("grader_not_attempted" if md.get("grade", "").lower() == "not_attempted" and not tool_called else None)`.
Python `or` keeps the left operand only when truthy; the right operand
calls `.lower()` on the stored grade (default "" when the key is
absent), which raises on a non-string value. -/
def mergedAbstentionReason (md : String → Option PyVal) (tool_called : Bool) :
    Except Unit PyVal :=
  let ar0 := (md "abstention_reason").getD .vNone
  if pyTruthy ar0 then .ok ar0
  else
    match (md "grade").getD (.vStr "") with
    | .vStr s =>
        .ok (if pyLower s = "not_attempted" && !tool_called then
               .vStr "grader_not_attempted"
             else .vNone)
    | _ => .error ()

/-- The `score` closure of `simpleqa_search_signal_scorer`. The baseline
grader collaborator is the thunk `g`; it is forced only on the
delegation path, so a result independent of `g` witnesses that the
grader was not invoked. -/
def score (state : TaskState) (g : Unit → ScoreRec) : Except Unit ScoreRec :=
  let predicted_answer := pyStrip (state.output.completion.getD "")
  match extract_tool_calls state with
  | .error e => .error e
  | .ok (tool_called, tool_names) =>
      if tool_called && predicted_answer.isEmpty then
        .ok { value := 0, answer := predicted_answer,
              metadata := shortCircuitMeta tool_names }
      else
        let graded := g ()
        match mergedAbstentionReason graded.metadata tool_called with
        | .error e => .error e
        | .ok ar =>
            .ok { value := graded.value, answer := graded.answer,
                  metadata := mergeMeta graded.metadata tool_called tool_names ar }

/-- An inspect-ai `SampleScore` as read by the metric: only its `score`
field is consulted. -/
structure SampleScore where
  score : ScoreRec

/-- The four run-level rates returned by `metric_calculator`. -/
structure RunMetrics where
  search_call_rate : ℚ
  abstain_via_tool_rate : ℚ
  attempted_answer_rate : ℚ
  hallucination_rate : ℚ
deriving DecidableEq

/-- The four counters accumulated by the loop in `metric_calculator`. -/
structure Tallies where
  tool_called : Nat
  abstain_via_tool : Nat
  attempted : Nat
  incorrect : Nat

/-- The per-score reads at the top of the metric loop body:
`grade = (md.get("grade") or "").lower()` (raises on a truthy
non-string grade), `tool = bool(md.get("tool_called", False))`,
`abstention_reason = md.get("abstention_reason")`. -/
def readScore (s : SampleScore) : Except Unit (String × Bool × PyVal) :=
  let md := s.score.metadata
  let g0 := (md "grade").getD .vNone
  match (if pyTruthy g0 then g0 else .vStr "") with
  | .vStr gs =>
      .ok (pyLower gs,
           pyTruthy ((md "tool_called").getD (.vBool false)),
           (md "abstention_reason").getD .vNone)
  | _ => .error ()

/-- Python `abstention_reason == "tool_call"`. -/
def isToolCallReason : PyVal → Bool
  | .vStr s => s = "tool_call"
  | _ => false

/-- The tally loop of `metric_calculator`: attempted (grade correct or
incorrect) and abstain-via-tool (tool called and reason "tool_call")
branches are mutually exclusive; incorrect is only counted inside the
attempted branch. -/
def tallyLoop : List SampleScore → Tallies → Except Unit Tallies
  | [], t => .ok t
  | s :: rest, t =>
      match readScore s with
      | .error e => .error e
      | .ok (grade, tool, ar) =>
          let t1 : Tallies :=
            { t with tool_called := if tool then t.tool_called + 1 else t.tool_called }
          let t2 : Tallies :=
            if grade = "correct" ∨ grade = "incorrect" then
              { t1 with attempted := t1.attempted + 1,
                        incorrect := if grade = "incorrect" then t1.incorrect + 1
                                     else t1.incorrect }
            else if tool && isToolCallReason ar then
              { t1 with abstain_via_tool := t1.abstain_via_tool + 1 }
            else t1
          tallyLoop rest t2

/-- The `metric_calculator` closure of `simpleqa_search_signal_metrics`:
zero scores short-circuits to all-zero rates; otherwise the four rates
are computed from the tallies, with `hallucination_rate` guarded by
`attempted > 0`. -/
def metric_calculator (scores : List SampleScore) : Except Unit RunMetrics :=
  if scores.isEmpty then
    .ok { search_call_rate := 0, abstain_via_tool_rate := 0,
          attempted_answer_rate := 0, hallucination_rate := 0 }
  else
    match tallyLoop scores ⟨0, 0, 0, 0⟩ with
    | .error e => .error e
    | .ok t =>
        let total : ℚ := scores.length
        .ok { search_call_rate := t.tool_called / total,
              abstain_via_tool_rate := t.abstain_via_tool / total,
              attempted_answer_rate := t.attempted / total,
              hallucination_rate :=
                if 0 < t.attempted then (t.incorrect : ℚ) / (t.attempted : ℚ) else 0 }

/-! ### Derived predicates used to state the theorems -/

/-- Does a history message trigger the fallback scan (role "assistant"
with a truthy tool-call list)? -/
def isAssistantWithCalls (m : Message) : Bool :=
  (m.role == some "assistant") &&
    (match m.tool_calls with
     | some tcs => !tcs.isEmpty
     | none => false)

/-- A tool-call entry on which `extractName` cannot raise: objects are
always safe; a dict is safe unless its truthy "name" is absent and its
"function" value is truthy but not a dict. -/
def safeTC : ToolCall → Bool
  | .ofDict d =>
      pyTruthy (dictGet d "name") || !pyTruthy (dictGet d "function") ||
        (dictGet d "function").isDict
  | .ofObj _ _ => true

/-- All tool-call entries carried by a message are safe. -/
def safeMsg (m : Message) : Bool :=
  match m.tool_calls with
  | some tcs => tcs.all safeTC
  | none => true

/-- All tool-call entries reachable from a state (primary output message
and history) are safe. -/
def safeState (st : TaskState) : Bool :=
  (match st.output.message with
   | some m => safeMsg m
   | none => true) &&
  (st.messages.getD []).all safeMsg

/-- The lower-cased grade a score contributes to the metric loop
(default "" where the loop would raise; only used under hypotheses that
rule the raise out). -/
def gradeOfD (s : SampleScore) : String :=
  match readScore s with
  | .ok t => t.1
  | .error _ => ""

/-- The tool flag a score contributes to the metric loop. -/
def toolOfD (s : SampleScore) : Bool :=
  match readScore s with
  | .ok t => t.2.1
  | .error _ => false

/-- The abstention reason a score contributes to the metric loop. -/
def arOfD (s : SampleScore) : PyVal :=
  match readScore s with
  | .ok t => t.2.2
  | .error _ => .vNone

/-- Did the sample attempt an answer (lower-cased grade "correct" or
"incorrect")? -/
def attemptedP (s : SampleScore) : Bool :=
  gradeOfD s == "correct" || gradeOfD s == "incorrect"

/-- Was the sample graded "incorrect" (lower-cased)? -/
def incorrectP (s : SampleScore) : Bool :=
  gradeOfD s == "incorrect"

/-- Did the sample abstain via tool call (not attempted, tool called,
reason "tool_call")? -/
def abstainP (s : SampleScore) : Bool :=
  !attemptedP s && toolOfD s && isToolCallReason (arOfD s)

/-- Number of scores whose lower-cased grade is "correct" or
"incorrect". -/
def attemptedCount (scores : List SampleScore) : Nat :=
  scores.countP attemptedP

/-- Number of scores whose lower-cased grade is "incorrect". -/
def incorrectCount (scores : List SampleScore) : Nat :=
  scores.countP incorrectP

/-- Two sample scores agreeing on the three metadata fields the metric
loop reads. -/
def mdAgree (s1 s2 : SampleScore) : Prop :=
  s1.score.metadata "grade" = s2.score.metadata "grade" ∧
  s1.score.metadata "tool_called" = s2.score.metadata "tool_called" ∧
  s1.score.metadata "abstention_reason" = s2.score.metadata "abstention_reason"

/-! ### Concrete fixtures for witnesses and counterexamples -/

/-- A dict-shaped invocation of the "search" tool. -/
def searchCall : ToolCall := .ofDict [("name", .vStr "search")]

/-- An object-shaped invocation with no name and no function attribute. -/
def unnamedCall : ToolCall := .ofObj none none

/-- A dict-shaped invocation whose "function" value is a truthy
non-dict: probing it with `.get` raises. -/
def badCall : ToolCall := .ofDict [("function", .vStr "x")]

/-- Transcript: the primary output carries one "search" invocation and
only whitespace completion text. -/
def stateToolNoAnswer : TaskState :=
  { output := { message := some { role := some "assistant", tool_calls := some [searchCall] },
                completion := some "  " },
    messages := none }

/-- Transcript: no tool calls anywhere, non-empty completion. -/
def stateAnswerNoTool : TaskState :=
  { output := { message := none, completion := some " Paris " },
    messages := none }

/-- Transcript: one "search" invocation and a non-empty completion. -/
def stateToolAndAnswer : TaskState :=
  { output := { message := some { role := some "assistant", tool_calls := some [searchCall] },
                completion := some "Paris" },
    messages := none }

/-- Transcript: the primary output carries one unnamed invocation and
an empty completion. -/
def stateUnnamedTool : TaskState :=
  { output := { message := some { role := some "assistant", tool_calls := some [unnamedCall] },
                completion := some "" },
    messages := none }

/-- Transcript whose only invocation entry makes `extractName` raise. -/
def stateBadTool : TaskState :=
  { output := { message := some { role := some "assistant", tool_calls := some [badCall] },
                completion := none },
    messages := none }

/-- Transcript exercising the history fallback: empty primary
invocation list; the history holds a user message, an assistant message
without calls, the first assistant message with calls, and a later one. -/
def stateHistoryTool : TaskState :=
  { output := { message := some { role := some "assistant", tool_calls := some [] },
                completion := some "" },
    messages := some
      [ { role := some "user", tool_calls := none },
        { role := some "assistant", tool_calls := some [] },
        { role := some "assistant", tool_calls := some [searchCall] },
        { role := some "assistant", tool_calls := some [.ofDict [("name", .vStr "other")]] } ] }

/-- Transcript built only from degenerate-but-safe shapes: missing
primary message, history messages missing role or tool_calls, and
invocation entries with no extractable name. -/
def stateDegenerate : TaskState :=
  { output := { message := none, completion := none },
    messages := some
      [ { role := none, tool_calls := none },
        { role := some "assistant", tool_calls := none },
        { role := some "assistant",
          tool_calls := some [unnamedCall, .ofDict []] } ] }

/-- A baseline grader result with grade "correct" and nothing else. -/
def baselineCorrect : ScoreRec :=
  { value := 1, answer := "Paris",
    metadata := fun k =>
      if k = "grade" then some (.vStr "correct")
      else none }

/-- A baseline grader result carrying grade "correct", a grade letter
and an unrelated extra key. -/
def baselineRich : ScoreRec :=
  { value := 1, answer := "Paris",
    metadata := fun k =>
      if k = "grade" then some (.vStr "correct")
      else if k = "grade_letter" then some (.vStr "A")
      else if k = "extra" then some (.vInt 7)
      else none }

/-- A baseline grader result whose own abstention_reason is the empty
string: non-null but falsy. -/
def baselineEmptyAR : ScoreRec :=
  { value := 1, answer := "Paris",
    metadata := fun k =>
      if k = "grade" then some (.vStr "correct")
      else if k = "abstention_reason" then some (.vStr "")
      else none }

/-- A sample score graded "incorrect" with no tool call. -/
def sampleIncorrect : SampleScore :=
  ⟨{ value := 0, answer := "wrong",
     metadata := fun k => if k = "grade" then some (.vStr "INCORRECT") else none }⟩

/-- A sample score graded "correct" with no tool call. -/
def sampleCorrect : SampleScore :=
  ⟨{ value := 1, answer := "right",
     metadata := fun k => if k = "grade" then some (.vStr "correct") else none }⟩

/-- Scenario C of the spec: one incorrect and one correct attempted
sample. -/
def scenarioC : List SampleScore := [sampleIncorrect, sampleCorrect]

/-! ### Detector lemmas -/

/-- The history scan only answers `tool_called = false` with an empty
name list. -/
lemma scanHistory_false_nil :
    ∀ (l : List Message) (ns : List String),
      scanHistory l = .ok (false, ns) → ns = [] := by
  intro l
  induction l with
  | nil =>
      intro ns h
      rw [scanHistory] at h
      injection h with h
      exact (congrArg Prod.snd h).symm
  | cons m rest ih =>
      intro ns h
      rw [scanHistory] at h
      split at h
      · split at h
        · split at h
          · exact ih ns h
          · split at h
            · exact Except.noConfusion h
            · injection h with h
              exact Bool.noConfusion (congrArg Prod.fst h)
        · exact ih ns h
      · exact ih ns h

/-- The detector only answers `tool_called = false` with an empty name
list. -/
lemma extract_false_nil (state : TaskState) (ns : List String)
    (h : extract_tool_calls state = .ok (false, ns)) : ns = [] := by
  rw [extract_tool_calls] at h
  split at h
  · split at h
    · exact scanHistory_false_nil _ ns h
    · split at h
      · exact Except.noConfusion h
      · injection h with h
        exact Bool.noConfusion (congrArg Prod.fst h)
  · exact scanHistory_false_nil _ ns h

/-- C2 (amended): a non-empty extracted name list forces
`tool_called = true`; the converse implication of the claim fails
(see the counterexample). -/
theorem detector_names_imply_called (state : TaskState) (b : Bool)
    (ns : List String) (h : extract_tool_calls state = .ok (b, ns))
    (hne : ns ≠ []) : b = true := by
  cases b with
  | true => rfl
  | false => exact absurd (extract_false_nil state ns h) hne

/-- Witness for `detector_names_imply_called` at a transcript whose
primary output carries one named "search" invocation. -/
theorem detector_names_imply_called_witness :
    extract_tool_calls stateToolNoAnswer = .ok (true, ["search"]) ∧
      (["search"] : List String) ≠ [] ∧ true = true :=
  ⟨rfl, by decide,
    detector_names_imply_called stateToolNoAnswer true ["search"] rfl (by decide)⟩

/-- C2 counterexample: an invocation entry with no extractable name
yields `tool_called = true` with `tool_names = []`, refuting the
claim's "tool_names empty implies tool_called == false" conjunct. -/
theorem detector_unnamed_call_counterexample :
    extract_tool_calls stateUnnamedTool = .ok (true, []) := rfl

/-- Skipping lemma: a history message that is not an assistant message
with a truthy tool-call list does not affect the scan. -/
lemma scanHistory_skip (m : Message) (l : List Message)
    (hm : isAssistantWithCalls m = false) :
    scanHistory (m :: l) = scanHistory l := by
  rw [scanHistory]
  by_cases hr : m.role = some "assistant"
  · rw [if_pos hr]
    cases htc : m.tool_calls with
    | none => rfl
    | some tcs =>
        have he : tcs.isEmpty = true := by
          simp only [isAssistantWithCalls, hr, htc, beq_self_eq_true,
            Bool.true_and] at hm
          simpa using hm
        simp only [he, if_true]
  · rw [if_neg hr]

/-- C6: with an empty (or absent) primary invocation list, the first
assistant history message with a non-empty invocation list decides the
result, and its names alone are returned. -/
theorem detector_history_first (state : TaskState) (pre rest : List Message)
    (m : Message) (tcs : List ToolCall) (ns : List String)
    (hprim : ∀ l, state.output.message.bind Message.tool_calls = some l → l = [])
    (hmsgs : state.messages.getD [] = pre ++ m :: rest)
    (hpre : ∀ x ∈ pre, isAssistantWithCalls x = false)
    (hrole : m.role = some "assistant")
    (htc : m.tool_calls = some tcs) (hne : tcs ≠ [])
    (hx : extractNames tcs = .ok ns) :
    extract_tool_calls state = .ok (true, ns) := by
  have he : tcs.isEmpty = false := by simpa [List.isEmpty_iff] using hne
  have hscan : ∀ pre2 : List Message, (∀ x ∈ pre2, isAssistantWithCalls x = false) →
      scanHistory (pre2 ++ m :: rest) = .ok (true, ns) := by
    intro pre2
    induction pre2 with
    | nil =>
        intro _
        rw [List.nil_append, scanHistory]
        simp only [hrole, if_true, htc, he, Bool.false_eq_true, if_false, hx]
    | cons x xs ih =>
        intro hall
        rw [List.cons_append,
          scanHistory_skip x _ (hall x (List.mem_cons_self x xs))]
        exact ih (fun y hy => hall y (List.mem_cons_of_mem x hy))
  rw [extract_tool_calls]
  cases hm : state.output.message.bind Message.tool_calls with
  | none => rw [hmsgs]; exact hscan pre hpre
  | some l =>
      have hl : l = [] := hprim l hm
      subst hl
      simp only [List.isEmpty_nil, if_true]
      rw [hmsgs]
      exact hscan pre hpre

/-- Witness for `detector_history_first`: the third history message is
the first assistant message carrying calls; its "search" name is
returned and the later assistant message is ignored. -/
theorem detector_history_first_witness :
    extract_tool_calls stateHistoryTool = .ok (true, ["search"]) :=
  detector_history_first stateHistoryTool
    [ { role := some "user", tool_calls := none },
      { role := some "assistant", tool_calls := some [] } ]
    [ { role := some "assistant", tool_calls := some [.ofDict [("name", .vStr "other")]] } ]
    { role := some "assistant", tool_calls := some [searchCall] }
    [searchCall] ["search"]
    (fun l hl => by
      simp only [stateHistoryTool] at hl
      exact (Option.some.injEq _ _ ▸ hl).symm)
    rfl
    (by intro x hx; fin_cases hx <;> rfl)
    rfl rfl (List.cons_ne_nil _ _) rfl

/-- Name extraction never raises on a safe entry. -/
lemma extractName_safe (tc : ToolCall) (h : safeTC tc = true) :
    ∃ n, extractName tc = .ok n := by
  cases tc with
  | ofObj nm fn =>
      cases h2 : nm.getD PyVal.vNone with
      | vNone =>
          exact ⟨(fn.bind FuncObj.name).getD PyVal.vNone, by rw [extractName, h2]⟩
      | vBool b => exact ⟨PyVal.vBool b, by rw [extractName, h2]⟩
      | vInt n => exact ⟨PyVal.vInt n, by rw [extractName, h2]⟩
      | vStr s => exact ⟨PyVal.vStr s, by rw [extractName, h2]⟩
      | vList l => exact ⟨PyVal.vList l, by rw [extractName, h2]⟩
      | vDict d => exact ⟨PyVal.vDict d, by rw [extractName, h2]⟩
  | ofDict d =>
      by_cases h1 : pyTruthy (dictGet d "name") = true
      · exact ⟨dictGet d "name", by simp only [extractName, h1, if_true]⟩
      · have h1f : pyTruthy (dictGet d "name") = false := by simpa using h1
        by_cases h2 : pyTruthy (dictGet d "function") = true
        · have hd : (dictGet d "function").isDict = true := by
            simp only [safeTC, h1f, h2, Bool.false_or] at h
            simpa using h
          cases hf : dictGet d "function" with
          | vDict d2 =>
              exact ⟨dictGet d2 "name", by
                rw [hf] at h2
                simp only [extractName, h1f, Bool.false_eq_true, if_false, hf, h2, if_true]⟩
          | vNone => rw [hf] at hd; exact Bool.noConfusion hd
          | vBool b => rw [hf] at hd; exact Bool.noConfusion hd
          | vInt n => rw [hf] at hd; exact Bool.noConfusion hd
          | vStr s => rw [hf] at hd; exact Bool.noConfusion hd
          | vList l => rw [hf] at hd; exact Bool.noConfusion hd
        · have h2f : pyTruthy (dictGet d "function") = false := by simpa using h2
          exact ⟨dictGet [] "name", by
            simp only [extractName, h1f, Bool.false_eq_true, if_false, h2f]⟩

/-- The extraction loop never raises on a list of safe entries. -/
lemma extractNames_safe :
    ∀ tcs : List ToolCall, tcs.all safeTC = true →
      ∃ ns, extractNames tcs = .ok ns := by
  intro tcs
  induction tcs with
  | nil => exact fun _ => ⟨[], rfl⟩
  | cons tc rest ih =>
      intro h
      rw [List.all_cons, Bool.and_eq_true] at h
      obtain ⟨n, hn⟩ := extractName_safe tc h.1
      obtain ⟨ns, hns⟩ := ih h.2
      exact ⟨if pyTruthy n then pyStr n :: ns else ns, by
        rw [extractNames]; simp only [hn, hns]⟩

/-- The history scan never raises when every message carries only safe
entries. -/
lemma scanHistory_safe :
    ∀ l : List Message, l.all safeMsg = true →
      ∃ r, scanHistory l = .ok r := by
  intro l
  induction l with
  | nil => exact fun _ => ⟨(false, []), rfl⟩
  | cons m rest ih =>
      intro h
      rw [List.all_cons, Bool.and_eq_true] at h
      obtain ⟨r, hr⟩ := ih h.2
      by_cases hrole : m.role = some "assistant"
      · cases htc : m.tool_calls with
        | none => exact ⟨r, by rw [scanHistory, if_pos hrole]; simp only [htc, hr]⟩
        | some tcs =>
            by_cases he : tcs.isEmpty = true
            · exact ⟨r, by rw [scanHistory, if_pos hrole]; simp only [htc, he, if_true, hr]⟩
            · have hall : tcs.all safeTC = true := by
                have := h.1
                rw [safeMsg, htc] at this
                exact this
              obtain ⟨ns, hns⟩ := extractNames_safe tcs hall
              refine ⟨(true, ns), ?_⟩
              rw [scanHistory, if_pos hrole]
              simp only [htc, he, if_false, hns]
              simp [he]
      · exact ⟨r, by rw [scanHistory, if_neg hrole]; exact hr⟩

/-- C9 (amended): the detector returns a `(bool, list of string)`
result, raising no exception, on every transcript whose reachable
tool-call entries are safe — in particular on transcripts missing the
primary message, on messages missing role or tool_calls, and on
entries with no extractable name. The unamended claim fails on a dict
entry with a truthy non-dict "function" value (see the
counterexample). -/
theorem detector_total_on_safe (st : TaskState) (h : safeState st = true) :
    ∃ r, extract_tool_calls st = .ok r := by
  rw [safeState, Bool.and_eq_true] at h
  obtain ⟨r, hr⟩ := scanHistory_safe _ h.2
  cases hm : st.output.message.bind Message.tool_calls with
  | none => exact ⟨r, by rw [extract_tool_calls]; simp only [hm, hr]⟩
  | some tcs =>
      by_cases he : tcs.isEmpty = true
      · exact ⟨r, by rw [extract_tool_calls]; simp only [hm, he, if_true, hr]⟩
      · obtain ⟨m0, hm0⟩ := Option.bind_eq_some.mp hm
        have hall : tcs.all safeTC = true := by
          have hs : safeMsg m0 = true := by
            rw [hm0.1] at h
            exact h.1
          rw [safeMsg, hm0.2] at hs
          exact hs
        obtain ⟨ns, hns⟩ := extractNames_safe tcs hall
        refine ⟨(true, ns), ?_⟩
        rw [extract_tool_calls]
        simp only [hm, he, if_false, hns]
        simp [he]

/-- Witness for `detector_total_on_safe` at the degenerate transcript. -/
theorem detector_total_on_safe_witness :
    safeState stateDegenerate = true ∧
      ∃ r, extract_tool_calls stateDegenerate = .ok r :=
  ⟨rfl, detector_total_on_safe stateDegenerate rfl⟩

/-- C9 counterexample: a dict-shaped entry whose "function" value is a
truthy non-dict makes the detector raise, refuting the claim's
universal no-exception guarantee. -/
theorem detector_raises_counterexample :
    extract_tool_calls stateBadTool = .error () := rfl

/-! ### Scorer theorems -/

/-- C1: when the detector reports a tool call and the stripped
completion is empty, the scorer short-circuits: value 0.0, grade
"not_attempted", grade letter "C", tool_called true, tools = the
detected names, abstention_reason "tool_call" — and the result is the
same for every baseline grader, i.e. the grader is not invoked. -/
theorem score_short_circuit (state : TaskState) (ns : List String)
    (h1 : extract_tool_calls state = .ok (true, ns))
    (h2 : pyStrip (state.output.completion.getD "") = "") :
    (∀ g : Unit → ScoreRec,
        score state g =
          .ok { value := 0, answer := "", metadata := shortCircuitMeta ns }) ∧
      shortCircuitMeta ns "grade" = some (.vStr "not_attempted") ∧
      shortCircuitMeta ns "grade_letter" = some (.vStr "C") ∧
      shortCircuitMeta ns "tool_called" = some (.vBool true) ∧
      shortCircuitMeta ns "tools" = some (.vList (ns.map PyVal.vStr)) ∧
      shortCircuitMeta ns "abstention_reason" = some (.vStr "tool_call") := by
  refine ⟨fun g => ?_, rfl, rfl, rfl, rfl, rfl⟩
  rw [score]
  simp only [h1, h2, Bool.true_and]
  rfl

/-- Witness for `score_short_circuit`: one "search" call, whitespace
completion, a rich baseline that is visibly ignored. -/
theorem score_short_circuit_witness :
    extract_tool_calls stateToolNoAnswer = .ok (true, ["search"]) ∧
      pyStrip (stateToolNoAnswer.output.completion.getD "") = "" ∧
      score stateToolNoAnswer (fun _ => baselineRich) =
        .ok { value := 0, answer := "", metadata := shortCircuitMeta ["search"] } :=
  ⟨rfl, rfl, (score_short_circuit stateToolNoAnswer ["search"] rfl rfl).1 _⟩

/-- C3 (amended): on the delegation path the merged abstention_reason
is the baseline's own value when that value is truthy; when it is
falsy (None, but also the non-null empty string, which the unamended
claim would preserve), it is "grader_not_attempted" exactly when the
lower-cased baseline grade is "not_attempted" and no tool was called,
and None otherwise. -/
theorem score_merge_abstention (state : TaskState) (g : Unit → ScoreRec)
    (tc : Bool) (ns : List String) (r : ScoreRec)
    (hx : extract_tool_calls state = .ok (tc, ns))
    (hdel : (tc && (pyStrip (state.output.completion.getD "")).isEmpty) = false)
    (hok : score state g = .ok r) :
    (pyTruthy (((g ()).metadata "abstention_reason").getD .vNone) = true →
       r.metadata "abstention_reason" =
         some (((g ()).metadata "abstention_reason").getD .vNone)) ∧
    (∀ s, pyTruthy (((g ()).metadata "abstention_reason").getD .vNone) = false →
       ((g ()).metadata "grade").getD (.vStr "") = .vStr s →
       r.metadata "abstention_reason" =
         some (if pyLower s = "not_attempted" && !tc then
                 PyVal.vStr "grader_not_attempted"
               else PyVal.vNone)) := by
  rw [score] at hok
  simp only [hx, hdel, Bool.false_eq_true, if_false] at hok
  split at hok
  · exact Except.noConfusion hok
  · rename_i ar heq
    injection hok with hok
    subst hok
    constructor
    · intro htr
      rw [mergedAbstentionReason, if_pos htr] at heq
      injection heq with heq
      rw [← heq]
      rfl
    · intro s htr hg
      rw [mergedAbstentionReason, htr] at heq
      simp only [Bool.false_eq_true, if_false, hg] at heq
      injection heq with heq
      rw [← heq]
      rfl

/-- Witness for `score_merge_abstention`: no tool call, grade
"correct", no baseline abstention_reason, so the merged reason is
None. -/
theorem score_merge_abstention_witness :
    (mergeMeta baselineRich.metadata false [] PyVal.vNone) "abstention_reason" =
      some (if pyLower "correct" = "not_attempted" && !false then
              PyVal.vStr "grader_not_attempted"
            else PyVal.vNone) :=
  (score_merge_abstention stateAnswerNoTool (fun _ => baselineRich) false []
      { value := 1, answer := "Paris",
        metadata := mergeMeta baselineRich.metadata false [] PyVal.vNone }
      rfl rfl rfl).2 "correct" rfl rfl

/-- C3 counterexample: a baseline whose abstention_reason is the empty
string — non-null, so the claim says it is preserved — is replaced by
None in the merged metadata. -/
theorem score_abstention_not_preserved_counterexample :
    baselineEmptyAR.metadata "abstention_reason" = some (PyVal.vStr "") ∧
      score stateAnswerNoTool (fun _ => baselineEmptyAR) =
        .ok { value := 1, answer := "Paris",
              metadata := mergeMeta baselineEmptyAR.metadata false [] PyVal.vNone } ∧
      (mergeMeta baselineEmptyAR.metadata false [] PyVal.vNone) "abstention_reason" =
        some PyVal.vNone :=
  ⟨rfl, rfl, rfl⟩

/-- C4: with a non-empty stripped completion the scorer delegates and
returns the baseline's value and answer unchanged; the merged metadata
overwrites or adds exactly tool_called, tools and abstention_reason
and preserves every other baseline key. -/
theorem score_delegation_frame (state : TaskState) (g : Unit → ScoreRec)
    (tc : Bool) (ns : List String) (r : ScoreRec)
    (hx : extract_tool_calls state = .ok (tc, ns))
    (hne : pyStrip (state.output.completion.getD "") ≠ "")
    (hok : score state g = .ok r) :
    r.value = (g ()).value ∧ r.answer = (g ()).answer ∧
    r.metadata "tool_called" = some (.vBool tc) ∧
    r.metadata "tools" = some (.vList (ns.map PyVal.vStr)) ∧
    (∃ ar, r.metadata "abstention_reason" = some ar) ∧
    ∀ k, k ≠ "tool_called" → k ≠ "tools" → k ≠ "abstention_reason" →
      r.metadata k = (g ()).metadata k := by
  have hemp : (pyStrip (state.output.completion.getD "")).isEmpty = false := by
    cases hcase : (pyStrip (state.output.completion.getD "")).isEmpty
    · rfl
    · exact absurd ((String.isEmpty_iff _).mp hcase) hne
  rw [score] at hok
  simp only [hx, hemp, Bool.and_false, Bool.false_eq_true, if_false] at hok
  split at hok
  · exact Except.noConfusion hok
  · rename_i ar heq
    injection hok with hok
    subst hok
    refine ⟨rfl, rfl, rfl, rfl, ⟨ar, rfl⟩, ?_⟩
    intro k hk1 hk2 hk3
    simp only [mergeMeta, if_neg hk1, if_neg hk2, if_neg hk3]

/-- Witness for `score_delegation_frame`: a tool call together with a
non-empty answer still delegates; the baseline's value, answer and its
unrelated "extra" key survive the merge. -/
theorem score_delegation_frame_witness :
    pyStrip (stateToolAndAnswer.output.completion.getD "") ≠ "" ∧
      ({ value := 1, answer := "Paris",
         metadata := mergeMeta baselineRich.metadata true ["search"] PyVal.vNone
         : ScoreRec }).value = baselineRich.value ∧
      (mergeMeta baselineRich.metadata true ["search"] PyVal.vNone) "extra" =
        baselineRich.metadata "extra" := by
  have h := score_delegation_frame stateToolAndAnswer (fun _ => baselineRich)
    true ["search"]
    { value := 1, answer := "Paris",
      metadata := mergeMeta baselineRich.metadata true ["search"] PyVal.vNone }
    rfl (by decide) rfl
  exact ⟨by decide, h.1, h.2.2.2.2.2 "extra" (by decide) (by decide) (by decide)⟩

/-! ### Metrics theorems -/

/-- The tallies computed by the metric loop are the counts of the four
per-sample predicates. -/
lemma tallyLoop_counts :
    ∀ (l : List SampleScore) (t t' : Tallies), tallyLoop l t = .ok t' →
      t'.tool_called = t.tool_called + l.countP toolOfD ∧
      t'.abstain_via_tool = t.abstain_via_tool + l.countP abstainP ∧
      t'.attempted = t.attempted + l.countP attemptedP ∧
      t'.incorrect = t.incorrect + l.countP incorrectP := by
  intro l
  induction l with
  | nil =>
      intro t t' h
      rw [tallyLoop] at h
      injection h with h
      subst h
      simp
  | cons s rest ih =>
      intro t t' h
      rw [tallyLoop] at h
      split at h
      · exact Except.noConfusion h
      · rename_i grade tool ar heq
        have hg : gradeOfD s = grade := by rw [gradeOfD, heq]
        have htl : toolOfD s = tool := by rw [toolOfD, heq]
        have har : arOfD s = ar := by rw [arOfD, heq]
        simp only [] at h
        by_cases hA : grade = "correct" ∨ grade = "incorrect"
        · rw [if_pos hA] at h
          by_cases hI : grade = "incorrect"
          · rw [if_pos hI] at h
            obtain ⟨h1, h2, h3, h4⟩ := ih _ t' h
            subst hI
            refine ⟨?_, ?_, ?_, ?_⟩
            · rw [h1, List.countP_cons, htl]
              cases tool <;> simp <;> omega
            · rw [h2, List.countP_cons]
              simp [abstainP, attemptedP, hg]
            · rw [h3, List.countP_cons]
              simp [attemptedP, hg]
              omega
            · rw [h4, List.countP_cons]
              simp [incorrectP, hg]
              omega
          · rw [if_neg hI] at h
            have hC : grade = "correct" := hA.resolve_right hI
            subst hC
            obtain ⟨h1, h2, h3, h4⟩ := ih _ t' h
            refine ⟨?_, ?_, ?_, ?_⟩
            · rw [h1, List.countP_cons, htl]
              cases tool <;> simp <;> omega
            · rw [h2, List.countP_cons]
              simp [abstainP, attemptedP, hg]
            · rw [h3, List.countP_cons]
              simp [attemptedP, hg]
              omega
            · rw [h4, List.countP_cons]
              simp [incorrectP, hg]
        · rw [if_neg hA] at h
          push_neg at hA
          have hgc : (gradeOfD s == "correct") = false := by
            simp [hg, hA.1]
          have hgi : (gradeOfD s == "incorrect") = false := by
            simp [hg, hA.2]
          by_cases hB : (tool && isToolCallReason ar) = true
          · rw [if_pos hB] at h
            obtain ⟨h1, h2, h3, h4⟩ := ih _ t' h
            have hT : tool = true := (Bool.and_eq_true _ _ ▸ hB).1
            refine ⟨?_, ?_, ?_, ?_⟩
            · rw [h1, List.countP_cons, htl, hT]
              simp
              omega
            · rw [h2, List.countP_cons]
              have hAR : isToolCallReason ar = true := by
                rw [hT] at hB
                simpa using hB
              have : abstainP s = true := by
                rw [abstainP, attemptedP, hgc, hgi, htl, har, hT, hAR]
                rfl
              rw [this]
              simp
              omega
            · rw [h3, List.countP_cons]
              simp [attemptedP, hgc, hgi]
            · rw [h4, List.countP_cons]
              have : incorrectP s = false := by rw [incorrectP, hgi]
              simp [this]
          · rw [if_neg hB] at h
            obtain ⟨h1, h2, h3, h4⟩ := ih _ t' h
            refine ⟨?_, ?_, ?_, ?_⟩
            · rw [h1, List.countP_cons, htl]
              cases tool <;> simp <;> omega
            · rw [h2, List.countP_cons]
              have : abstainP s = false := by
                rw [abstainP, attemptedP, hgc, hgi, htl, har]
                simpa using hB
              simp [this]
            · rw [h3, List.countP_cons]
              simp [attemptedP, hgc, hgi]
            · rw [h4, List.countP_cons]
              have : incorrectP s = false := by rw [incorrectP, hgi]
              simp [this]

/-- C7: zero samples is not an error — the aggregator returns all four
rates as 0.0. -/
theorem metric_calculator_empty :
    metric_calculator [] =
      .ok { search_call_rate := 0, abstain_via_tool_rate := 0,
            attempted_answer_rate := 0, hallucination_rate := 0 } := rfl

/-- C5: on a non-empty run the hallucination rate is the count of
lower-cased grade "incorrect" over the count of lower-cased grade in
the set containing "correct" and "incorrect" when that count is
positive, and 0.0 otherwise; the attempted-answer rate is the latter
count over the total. -/
theorem metric_hallucination_rate (scores : List SampleScore) (rm : RunMetrics)
    (hne : scores ≠ []) (h : metric_calculator scores = .ok rm) :
    rm.hallucination_rate =
      (if 0 < attemptedCount scores then
         (incorrectCount scores : ℚ) / (attemptedCount scores : ℚ)
       else 0) ∧
    rm.attempted_answer_rate = (attemptedCount scores : ℚ) / (scores.length : ℚ) := by
  have hemp : scores.isEmpty = false := by
    cases scores
    · exact absurd rfl hne
    · rfl
  rw [metric_calculator] at h
  simp only [hemp, Bool.false_eq_true, if_false] at h
  split at h
  · exact Except.noConfusion h
  · rename_i t heq
    injection h with h
    subst h
    obtain ⟨_, _, h3, h4⟩ := tallyLoop_counts scores _ t heq
    have hat : t.attempted = attemptedCount scores := by
      rw [h3]; simp [attemptedCount]
    have hinc : t.incorrect = incorrectCount scores := by
      rw [h4]; simp [incorrectCount]
    exact ⟨by rw [← hat, ← hinc], by rw [← hat]⟩

/-- The metrics computed for scenario C, written with the raw casts the
aggregator produces. -/
def scenarioCMetrics : RunMetrics :=
  { search_call_rate := ((0 : Nat) : ℚ) / ((2 : Nat) : ℚ),
    abstain_via_tool_rate := ((0 : Nat) : ℚ) / ((2 : Nat) : ℚ),
    attempted_answer_rate := ((2 : Nat) : ℚ) / ((2 : Nat) : ℚ),
    hallucination_rate := ((1 : Nat) : ℚ) / ((2 : Nat) : ℚ) }

/-- Witness for `metric_hallucination_rate` at scenario C: one
incorrect and one correct attempt give attempted rate 1.0 and
hallucination rate 0.5. -/
theorem metric_hallucination_rate_witness :
    metric_calculator scenarioC = .ok scenarioCMetrics ∧
      scenarioCMetrics.hallucination_rate = 1 / 2 ∧
      scenarioCMetrics.attempted_answer_rate = 1 := by
  have h := metric_hallucination_rate scenarioC scenarioCMetrics
    (by simp [scenarioC]) rfl
  have ha : attemptedCount scenarioC = 2 := rfl
  have hi : incorrectCount scenarioC = 1 := rfl
  refine ⟨rfl, ?_, ?_⟩
  · rw [h.1, ha, hi]
    norm_num
  · rw [h.2, ha]
    norm_num [scenarioC]

/-- C8: whenever the aggregator returns, each of the four rates lies in
the closed interval from 0 to 1. -/
theorem metric_rates_bounded (scores : List SampleScore) (rm : RunMetrics)
    (h : metric_calculator scores = .ok rm) :
    (0 ≤ rm.search_call_rate ∧ rm.search_call_rate ≤ 1) ∧
    (0 ≤ rm.abstain_via_tool_rate ∧ rm.abstain_via_tool_rate ≤ 1) ∧
    (0 ≤ rm.attempted_answer_rate ∧ rm.attempted_answer_rate ≤ 1) ∧
    (0 ≤ rm.hallucination_rate ∧ rm.hallucination_rate ≤ 1) := by
  rw [metric_calculator] at h
  by_cases hemp : scores.isEmpty = true
  · simp only [hemp, if_true] at h
    injection h with h
    subst h
    norm_num
  · have hemp2 : scores.isEmpty = false := by simpa using hemp
    simp only [hemp2, Bool.false_eq_true, if_false] at h
    split at h
    · exact Except.noConfusion h
    · rename_i t heq
      injection h with h
      subst h
      obtain ⟨h1, h2, h3, h4⟩ := tallyLoop_counts scores _ t heq
      have hlen : (0 : ℚ) < (scores.length : ℚ) := by
        have : scores ≠ [] := by
          intro hc
          rw [hc] at hemp2
          exact Bool.noConfusion hemp2
        exact_mod_cast List.length_pos.mpr this
      have hfrac : ∀ c : Nat, c ≤ scores.length →
          0 ≤ (c : ℚ) / (scores.length : ℚ) ∧ (c : ℚ) / (scores.length : ℚ) ≤ 1 := by
        intro c hc
        constructor
        · exact div_nonneg (Nat.cast_nonneg c) (le_of_lt hlen)
        · rw [div_le_one hlen]
          exact_mod_cast hc
      refine ⟨?_, ?_, ?_, ?_⟩
      · exact hfrac t.tool_called (by rw [h1, Nat.zero_add]; exact List.countP_le_length _)
      · exact hfrac t.abstain_via_tool (by rw [h2, Nat.zero_add]; exact List.countP_le_length _)
      · exact hfrac t.attempted (by rw [h3, Nat.zero_add]; exact List.countP_le_length _)
      · by_cases hpos : 0 < t.attempted
        · have hle : t.incorrect ≤ t.attempted := by
            rw [h3, h4, Nat.zero_add, Nat.zero_add]
            exact List.countP_mono_left fun s _ hs => by
              rw [attemptedP]
              rw [incorrectP] at hs
              rw [hs, Bool.or_true]
          have hq : (0 : ℚ) < (t.attempted : ℚ) := by exact_mod_cast hpos
          constructor
          · simp only [hpos, if_true]
            exact div_nonneg (Nat.cast_nonneg _) (le_of_lt hq)
          · simp only [hpos, if_true]
            rw [div_le_one hq]
            exact_mod_cast hle
        · constructor
          · simp [hpos]
          · simp [hpos]

/-- Witness for `metric_rates_bounded` at scenario C. -/
theorem metric_rates_bounded_witness :
    (0 ≤ scenarioCMetrics.search_call_rate ∧ scenarioCMetrics.search_call_rate ≤ 1) ∧
    (0 ≤ scenarioCMetrics.abstain_via_tool_rate ∧ scenarioCMetrics.abstain_via_tool_rate ≤ 1) ∧
    (0 ≤ scenarioCMetrics.attempted_answer_rate ∧ scenarioCMetrics.attempted_answer_rate ≤ 1) ∧
    (0 ≤ scenarioCMetrics.hallucination_rate ∧ scenarioCMetrics.hallucination_rate ≤ 1) :=
  metric_rates_bounded scenarioC scenarioCMetrics rfl

/-- The per-score reads agree on metadata agreeing at the three read
keys. -/
lemma readScore_congr (s1 s2 : SampleScore) (h : mdAgree s1 s2) :
    readScore s1 = readScore s2 := by
  obtain ⟨h1, h2, h3⟩ := h
  simp only [readScore, h1, h2, h3]

/-- The tally loop reads only the three metadata keys. -/
lemma tallyLoop_congr :
    ∀ {l1 l2 : List SampleScore}, List.Forall₂ mdAgree l1 l2 →
      ∀ t, tallyLoop l1 t = tallyLoop l2 t := by
  intro l1 l2 hf
  induction hf with
  | nil => intro t; rfl
  | cons hab htail ih =>
      intro t
      rename_i a b as bs
      rw [tallyLoop, tallyLoop, readScore_congr a b hab]
      cases hr : readScore b with
      | error e => rfl
      | ok trip =>
          obtain ⟨g, tl, ar⟩ := trip
          exact ih _

/-- C10: the aggregator output depends only on the grade, tool_called
and abstention_reason metadata fields — two equal-length collections
agreeing pairwise on those three fields produce identical rates,
whatever their values, answers or other metadata. -/
theorem metric_depends_only_on_three_fields (l1 l2 : List SampleScore)
    (hlen : l1.length = l2.length) (hagree : List.Forall₂ mdAgree l1 l2) :
    metric_calculator l1 = metric_calculator l2 := by
  cases hagree with
  | nil => rfl
  | cons hab htail =>
      rename_i a b as bs
      rw [metric_calculator, metric_calculator,
        tallyLoop_congr (List.Forall₂.cons hab htail), hlen]
      simp only [List.isEmpty_cons, Bool.false_eq_true, if_false]

/-- A sample agreeing with `sampleCorrect` on the three read fields but
with different value, answer and an extra metadata key. -/
def sampleCorrectVariant : SampleScore :=
  ⟨{ value := 0, answer := "different",
     metadata := fun k =>
       if k = "grade" then some (.vStr "correct")
       else if k = "note" then some (.vStr "extra")
       else none }⟩

/-- Witness for `metric_depends_only_on_three_fields`: the variant
sample yields the same rates as `sampleCorrect`. -/
theorem metric_depends_only_on_three_fields_witness :
    metric_calculator [sampleCorrect] = metric_calculator [sampleCorrectVariant] :=
  metric_depends_only_on_three_fields [sampleCorrect] [sampleCorrectVariant]
    rfl (List.Forall₂.cons ⟨rfl, rfl, rfl⟩ List.Forall₂.nil)

end SimpleQASearchSignal
